import Mathlib

/-!
Verification of the email-deletifier core: a shallow embedding of the
mailbox adapter (ImapService), the classification gateway (OpenAIClassifier)
and the two-pass lifecycle orchestrator (main), with theorems settling the
spec-level claims about them.
-/

namespace Deletifier

/-- Well-known lifecycle label for messages classified as advertising
(constant ADVERTISING_LABEL in main). -/
def ADVERTISING_LABEL : String := "Advertising"

/-- Well-known lifecycle label marking a message as handled
(constant PROCESSED_LABEL in main). -/
def PROCESSED_LABEL : String := "Processed"

/-- Batch size constant of the orchestrator (main). -/
def BATCH_SIZE : Nat := 50

/-- Wide age ceiling of the orchestrator, in days (main). -/
def MAX_EMAIL_AGE_DAYS : Int := 365

/-! ## Classification gateway (OpenAIClassifier.classifyEmail)

The reply of the external classifier is modelled after what reaches the
validation code: either a transport error, a missing content field, a JSON
parse failure, or a parsed record whose three fields each hold some JSON
value (or are absent).  JSON numbers are modelled as rationals. -/

/-- A JSON value as far as the validation code inspects it: the typeof
checks distinguish booleans, numbers and strings; everything else fails. -/
inductive JVal where
  | jbool (b : Bool)
  | jnum (q : ℚ)
  | jstr (s : String)
  | jnull
  | jobj
deriving DecidableEq, Repr

/-- The parsed JSON reply: the three fields the code reads, each possibly
absent (undefined) or holding an arbitrary JSON value. -/
structure RawReply where
  isAdvertising : Option JVal
  confidence : Option JVal
  reason : Option JVal
deriving DecidableEq, Repr

/-- What the gateway call can come back with, as seen by classifyEmail. -/
inductive GatewayResponse where
  | transportError
  | noContent
  | parseError
  | parsed (r : RawReply)
deriving DecidableEq, Repr

/-- The result record the classifier returns (ClassificationResult). -/
structure ClassificationResult where
  isAdvertising : Bool
  confidence : ℚ
  reason : String
deriving DecidableEq, Repr

/-- The fail-safe default result substituted on any classification error. -/
def defaultResult : ClassificationResult :=
  { isAdvertising := false, confidence := 0, reason := "Error during classification" }

/-- Extraction mirroring the typeof check for a boolean field. -/
def getBool : Option JVal → Option Bool
  | some (.jbool b) => some b
  | _ => none

/-- Extraction mirroring the typeof check for a number field. -/
def getNum : Option JVal → Option ℚ
  | some (.jnum q) => some q
  | _ => none

/-- Extraction mirroring the typeof check for a string field. -/
def getStr : Option JVal → Option String
  | some (.jstr s) => some s
  | _ => none

/-- The validation in classifyEmail: the three required fields must be
present with the right primitive types.  No range check is made. -/
def validShape (r : RawReply) : Bool :=
  (getBool r.isAdvertising).isSome && (getNum r.confidence).isSome &&
    (getStr r.reason).isSome

/-- OpenAIClassifier.classifyEmail after the external call: validates the
parsed reply field by field and returns it, or returns defaultResult on a
transport error, absent content, a parse failure, or a failed typeof
check (the thrown error is caught and converted in the catch block). -/
def classifyEmail (resp : GatewayResponse) : ClassificationResult :=
  match resp with
  | .parsed r =>
      match getBool r.isAdvertising, getNum r.confidence, getStr r.reason with
      | some b, some q, some s => { isAdvertising := b, confidence := q, reason := s }
      | _, _, _ => defaultResult
  | _ => defaultResult

/-! ## Gmail-style (label-semantics) mailbox state

A message carries a set of labels (INBOX is itself a label); fetching from
a location opens its label view and searches with the raw query that the
adapter builds: an explicit exclusion of the Processed label plus an age
lower bound.  The clientside ageInDays comes from parsing the Date header
and can be NaN (modelled as none) when the header is present but
unparsable. -/

/-- A message of a label-semantics mailbox: uid, current labels, the
provider-side age in days (what the after: clause of the raw search query
filters on) and the clientside ageInDays of the fetched record. -/
structure GMsg where
  uid : Nat
  labels : List String
  internalAgeDays : Int
  ageInDays : Option Int
deriving DecidableEq, Repr

/-- Adding one label to one message (the provider addLabels primitive):
label sets only grow. -/
def addLabelTo (label : String) (m : GMsg) : GMsg :=
  { m with labels := if label ∈ m.labels then m.labels else m.labels ++ [label] }

/-- ImapService.addLabel on a Gmail provider: tags the message with the
given label without moving or removing anything. -/
def addLabelGmail (st : List GMsg) (id : Nat) (label : String) : List GMsg :=
  st.map fun m => if m.uid = id then addLabelTo label m else m

/-- The result cap of fetchEmails: options.batchSize with 100 substituted
when the value is falsy (results.slice(0, options.batchSize or 100)). -/
def effectiveBatch (batchSize : Nat) : Nat := if batchSize = 0 then 100 else batchSize

/-- The Gmail search built by ImapService.fetchEmails: the open box
restricts to messages carrying the location label, and the X-GM-RAW query
is -label:Processed plus, when maxAgeDays is truthy, an after: date
maxAgeDays back. -/
def gmailSearchMatch (loc : String) (maxAgeDays : Int) (m : GMsg) : Bool :=
  decide (loc ∈ m.labels) && !decide (PROCESSED_LABEL ∈ m.labels) &&
    (decide (maxAgeDays = 0) || decide (m.internalAgeDays ≤ maxAgeDays))

/-- ImapService.fetchEmails on a Gmail provider: open the location, search
with the raw query, cap the results at the batch size. -/
def fetchEmailsGmail (st : List GMsg) (maxAgeDays : Int) (batchSize : Nat)
    (loc : String) : List GMsg :=
  (st.filter (gmailSearchMatch loc maxAgeDays)).take (effectiveBatch batchSize)

/-- JavaScript x greater-or-equal t where x may be NaN (none): any
comparison against NaN is false. -/
def jsGeNum : Option Int → Int → Bool
  | some n, t => decide (t ≤ n)
  | none, _ => false

/-- ImapService.deleteEmail: open the location, flag the message Deleted,
expunge; the message is gone from the mailbox. -/
def deleteEmailGmail (st : List GMsg) (id : Nat) : List GMsg :=
  st.filter fun m => !decide (m.uid = id)

/-! ## Pass 1 (classification) of main

The loop is generic in the mailbox state: it only calls the addLabel
operation of the adapter, so it is parameterised by the state type and
that operation.  classifyOf gives the classification outcome per message
id, labelOk tells whether a given addLabel call succeeds (a failed call is
caught, logged and the loop continues).  The calls field records every
addLabel invocation issued, successful or not. -/

/-- Counters of Pass 1 (skippedCount is declared but never incremented in
main). -/
structure Pass1Counts where
  processedCount : Nat
  skippedCount : Nat
  advertisingCount : Nat
  notAdvertisingCount : Nat
deriving DecidableEq, Repr

/-- Running data of Pass 1: mailbox state, counters, and the log of
addLabel calls issued so far. -/
structure Pass1Acc (σ : Type) where
  state : σ
  counts : Pass1Counts
  calls : List (Nat × String)

/-- One iteration of the Pass 1 loop body of main: classify, add the
Advertising label when isAdvertising (failure caught), then always add the
Processed label (failure caught), then count the message as processed. -/
def pass1Step {σ : Type} (addL : σ → Nat → String → σ)
    (classifyOf : Nat → ClassificationResult) (labelOk : Nat → String → Bool)
    (acc : Pass1Acc σ) (id : Nat) : Pass1Acc σ :=
  let r := classifyOf id
  let acc1 : Pass1Acc σ :=
    if r.isAdvertising then
      let accA := { acc with calls := acc.calls ++ [(id, ADVERTISING_LABEL)] }
      if labelOk id ADVERTISING_LABEL then
        { accA with
            state := addL accA.state id ADVERTISING_LABEL
            counts := { accA.counts with
                          advertisingCount := accA.counts.advertisingCount + 1 } }
      else accA
    else acc
  let acc2 := { acc1 with calls := acc1.calls ++ [(id, PROCESSED_LABEL)] }
  let acc3 :=
    if labelOk id PROCESSED_LABEL then
      { acc2 with
          state := addL acc2.state id PROCESSED_LABEL
          counts := { acc2.counts with
                        notAdvertisingCount := acc2.counts.notAdvertisingCount + 1 } }
    else acc2
  { acc3 with counts := { acc3.counts with
                            processedCount := acc3.counts.processedCount + 1 } }

/-- The whole Pass 1 loop of main over the ids of the fetched messages. -/
def firstPass {σ : Type} (addL : σ → Nat → String → σ)
    (classifyOf : Nat → ClassificationResult) (labelOk : Nat → String → Bool)
    (st : σ) (ids : List Nat) : Pass1Acc σ :=
  ids.foldl (pass1Step addL classifyOf labelOk) ⟨st, ⟨0, 0, 0, 0⟩, []⟩

/-! ## Pass 2 (cleanup) of main -/

/-- Running data of Pass 2: mailbox state, the two counters, and the log
of deleteEmail calls issued (successful or not). -/
structure Pass2Acc where
  state : List GMsg
  deletedCount : Nat
  skippedDeletionCount : Nat
  deleteCalls : List Nat
deriving DecidableEq, Repr

/-- One iteration of the Pass 2 loop body of main: at or above the
threshold, delete (the call is skipped under dry run; a failed call is
caught and not counted); below it, count the message as skipped. -/
def pass2Step (dryRun : Bool) (deleteOk : Nat → Bool) (thresholdDays : Int)
    (acc : Pass2Acc) (e : GMsg) : Pass2Acc :=
  if jsGeNum e.ageInDays thresholdDays then
    if dryRun then { acc with deletedCount := acc.deletedCount + 1 }
    else
      let accC := { acc with deleteCalls := acc.deleteCalls ++ [e.uid] }
      if deleteOk e.uid then
        { accC with
            state := deleteEmailGmail accC.state e.uid
            deletedCount := accC.deletedCount + 1 }
      else accC
  else { acc with skippedDeletionCount := acc.skippedDeletionCount + 1 }

/-- The whole Pass 2 loop of main over the fetched Advertising messages. -/
def secondPass (dryRun : Bool) (deleteOk : Nat → Bool) (thresholdDays : Int)
    (st : List GMsg) (fetched : List GMsg) : Pass2Acc :=
  fetched.foldl (pass2Step dryRun deleteOk thresholdDays) ⟨st, 0, 0, []⟩

/-! ## Folder-semantics (non-Gmail) mailbox state

A message occupies exactly one folder and carries a set of IMAP flags.
The adapter's addLabel falls back to addFlags on such providers. -/

/-- A message of a folder-semantics mailbox. -/
structure FMsg where
  uid : Nat
  folder : String
  flags : List String
  internalAgeDays : Int
  seen : Bool
deriving DecidableEq, Repr

/-- Adding one IMAP flag to one message (the addFlags primitive): flags
only grow, the containing folder is untouched. -/
def addFlagTo (flag : String) (m : FMsg) : FMsg :=
  { m with flags := if flag ∈ m.flags then m.flags else m.flags ++ [flag] }

/-- ImapService.addLabel on a non-Gmail provider: opens INBOX and sets a
flag named after the label on the message with the given uid there; no
message changes folder. -/
def addLabelNonGmail (st : List FMsg) (id : Nat) (label : String) : List FMsg :=
  st.map fun m => if m.folder = "INBOX" ∧ m.uid = id then addFlagTo label m else m

/-- The read/unread clause of the non-Gmail search in
ImapService.fetchEmails: UNSEEN when neither or only-unread is requested,
SEEN when only-read is requested, nothing when both are requested. -/
def seenCriterion (includeRead includeUnread : Bool) (m : FMsg) : Bool :=
  if !includeRead && !includeUnread then !m.seen
  else if includeRead && !includeUnread then m.seen
  else if !includeRead && includeUnread then !m.seen
  else true

/-- ImapService.fetchEmails on a non-Gmail provider: open the folder,
search ALL plus a SINCE bound (when maxAgeDays is truthy) plus the
read/unread clause, cap at the batch size. -/
def fetchEmailsNonGmail (st : List FMsg) (maxAgeDays : Int) (batchSize : Nat)
    (includeRead includeUnread : Bool) (loc : String) : List FMsg :=
  ((st.filter fun m => decide (m.folder = loc)).filter fun m =>
      (decide (maxAgeDays = 0) || decide (m.internalAgeDays ≤ maxAgeDays)) &&
        seenCriterion includeRead includeUnread m).take (effectiveBatch batchSize)

/-! ## Per-message record construction in ImapService.fetchEmails

Each fetched message starts from a default record (date now, ageInDays 0)
and the Date header, when present, overwrites both: the parsed timestamp
and the floor of the elapsed milliseconds divided by a day.  A present but
unparsable header parses to an Invalid Date (none), making ageInDays NaN
(none).  The header parser of the runtime is a parameter. -/

/-- Raw per-message data the fetch obtains before building the record. -/
structure RawMessage where
  uid : Nat
  subjectHdr : Option String
  fromHdr : Option String
  dateHdr : Option String
  msgLabels : List String
deriving DecidableEq, Repr

/-- The Email record the adapter produces (timestamps in epoch
milliseconds, none standing for Invalid Date and NaN). -/
structure Email where
  id : String
  subject : String
  sender : String
  date : Option Int
  ageInDays : Option Int
  labels : List String
deriving DecidableEq, Repr

/-- Milliseconds per day (1000 * 60 * 60 * 24). -/
def msPerDay : Int := 1000 * 60 * 60 * 24

/-- The record assembly of the message event handler in fetchEmails. -/
def buildEmail (parseDate : String → Option Int) (now : Int) (raw : RawMessage) : Email :=
  match raw.dateHdr with
  | none =>
      { id := toString raw.uid, subject := raw.subjectHdr.getD "",
        sender := raw.fromHdr.getD "", date := some now, ageInDays := some 0,
        labels := raw.msgLabels }
  | some s =>
      match parseDate s with
      | some t =>
          { id := toString raw.uid, subject := raw.subjectHdr.getD "",
            sender := raw.fromHdr.getD "", date := some t,
            ageInDays := some ((now - t).fdiv msPerDay), labels := raw.msgLabels }
      | none =>
          { id := toString raw.uid, subject := raw.subjectHdr.getD "",
            sender := raw.fromHdr.getD "", date := none, ageInDays := none,
            labels := raw.msgLabels }

/-- The fetch builds one record per matched message; no per-message data
can fail the whole fetch. -/
def buildFetchedEmails (parseDate : String → Option Int) (now : Int)
    (raws : List RawMessage) : List Email :=
  raws.map (buildEmail parseDate now)

/-! ## ImapService.listFolders on a Gmail provider

The provider reports a tree of boxes; each name has its Gmail tag
stripped and is pushed unless already collected, children are walked
depth first, and empty or blank names are filtered out at the end.  The
JavaScript replace removes the first occurrence of the pattern. -/

/-- A mailbox box as reported by getBoxes: a name and child boxes. -/
inductive Box where
  | node (name : String) (children : List Box)

/-- Removal of the first occurrence of pat from a character list; none
when pat does not occur. -/
def removeFirstOccAux (pat : List Char) : List Char → Option (List Char)
  | [] => none
  | c :: cs =>
    if pat.isPrefixOf (c :: cs) then some ((c :: cs).drop pat.length)
    else (removeFirstOccAux pat cs).map fun ds => c :: ds

/-- JavaScript name.replace of the Gmail tag with the empty string:
removes the first occurrence, if any. -/
def replaceGmailTag (s : String) : String :=
  match removeFirstOccAux "[Gmail]/".toList s.toList with
  | none => s
  | some cs => String.mk cs

/-- Whitespace as far as the final trim check is concerned. -/
def isWsChar (c : Char) : Bool := c = ' ' || c = '\t' || c = '\n' || c = '\r'

/-- JavaScript String.trim: strip whitespace from both ends. -/
def trimStr (s : String) : String :=
  String.mk (((s.toList.dropWhile isWsChar).reverse.dropWhile isWsChar).reverse)

/-- The per-box body of processBox on a Gmail provider: when the box name
is truthy, strip the Gmail tag and push the result unless it is empty or
already collected. -/
def pushFolderName (acc : List String) (name : String) : List String :=
  let folderName := replaceGmailTag name
  if name ≠ "" ∧ folderName ≠ "" ∧ folderName ∉ acc then acc ++ [folderName] else acc

/-- The processBox walk of listFolders on a Gmail provider: handle the
box name, then walk the children depth first, then the remaining
siblings. -/
def processBoxesGmail (acc : List String) : List Box → List String
  | [] => acc
  | Box.node name children :: rest =>
      processBoxesGmail (processBoxesGmail (pushFolderName acc name) children) rest

/-- ImapService.listFolders on a Gmail provider: walk all reported boxes,
then drop empty or blank names. -/
def listFoldersGmail (boxes : List Box) : List String :=
  (processBoxesGmail [] boxes).filter fun f => decide (f ≠ "") && decide (trimStr f ≠ "")

/-! ## Characterisation lemmas for Pass 1 -/

/-- The net state effect of one Pass 1 iteration: possibly add the
Advertising label, then possibly add the Processed label. -/
def stepStateOf {σ : Type} (addL : σ → Nat → String → σ)
    (classifyOf : Nat → ClassificationResult) (labelOk : Nat → String → Bool)
    (s : σ) (id : Nat) : σ :=
  let s1 := if (classifyOf id).isAdvertising && labelOk id ADVERTISING_LABEL then
              addL s id ADVERTISING_LABEL
            else s
  if labelOk id PROCESSED_LABEL then addL s1 id PROCESSED_LABEL else s1

/-- The addLabel calls one Pass 1 iteration issues. -/
def pass1CallsOf (classifyOf : Nat → ClassificationResult) : List Nat → List (Nat × String)
  | [] => []
  | id :: ids =>
      ((if (classifyOf id).isAdvertising then [(id, ADVERTISING_LABEL)] else []) ++
        [(id, PROCESSED_LABEL)]) ++ pass1CallsOf classifyOf ids

lemma pass1Step_state {σ : Type} (addL : σ → Nat → String → σ)
    (c : Nat → ClassificationResult) (lo : Nat → String → Bool)
    (acc : Pass1Acc σ) (id : Nat) :
    (pass1Step addL c lo acc id).state = stepStateOf addL c lo acc.state id := by
  by_cases h1 : (c id).isAdvertising = true <;>
    by_cases h2 : lo id ADVERTISING_LABEL = true <;>
    by_cases h3 : lo id PROCESSED_LABEL = true <;>
      simp [pass1Step, stepStateOf, h1, h2, h3]

lemma pass1Step_calls {σ : Type} (addL : σ → Nat → String → σ)
    (c : Nat → ClassificationResult) (lo : Nat → String → Bool)
    (acc : Pass1Acc σ) (id : Nat) :
    (pass1Step addL c lo acc id).calls =
      acc.calls ++ ((if (c id).isAdvertising then [(id, ADVERTISING_LABEL)] else []) ++
        [(id, PROCESSED_LABEL)]) := by
  by_cases h1 : (c id).isAdvertising = true <;>
    by_cases h2 : lo id ADVERTISING_LABEL = true <;>
    by_cases h3 : lo id PROCESSED_LABEL = true <;>
      simp [pass1Step, h1, h2, h3]

lemma pass1Step_processedCount {σ : Type} (addL : σ → Nat → String → σ)
    (c : Nat → ClassificationResult) (lo : Nat → String → Bool)
    (acc : Pass1Acc σ) (id : Nat) :
    (pass1Step addL c lo acc id).counts.processedCount =
      acc.counts.processedCount + 1 := by
  by_cases h1 : (c id).isAdvertising = true <;>
    by_cases h2 : lo id ADVERTISING_LABEL = true <;>
    by_cases h3 : lo id PROCESSED_LABEL = true <;>
      simp [pass1Step, h1, h2, h3]

lemma foldl_pass1_calls {σ : Type} (addL : σ → Nat → String → σ)
    (c : Nat → ClassificationResult) (lo : Nat → String → Bool) :
    ∀ (ids : List Nat) (acc : Pass1Acc σ),
      (ids.foldl (pass1Step addL c lo) acc).calls = acc.calls ++ pass1CallsOf c ids := by
  intro ids
  induction ids with
  | nil => intro acc; simp [pass1CallsOf]
  | cons id ids ih =>
      intro acc
      rw [List.foldl_cons, ih, pass1Step_calls, pass1CallsOf]
      simp

lemma foldl_pass1_processedCount {σ : Type} (addL : σ → Nat → String → σ)
    (c : Nat → ClassificationResult) (lo : Nat → String → Bool) :
    ∀ (ids : List Nat) (acc : Pass1Acc σ),
      (ids.foldl (pass1Step addL c lo) acc).counts.processedCount =
        acc.counts.processedCount + ids.length := by
  intro ids
  induction ids with
  | nil => intro acc; simp
  | cons id ids ih =>
      intro acc
      rw [List.foldl_cons, ih, pass1Step_processedCount, List.length_cons]
      omega

lemma firstPass_calls {σ : Type} (addL : σ → Nat → String → σ)
    (c : Nat → ClassificationResult) (lo : Nat → String → Bool)
    (st : σ) (ids : List Nat) :
    (firstPass addL c lo st ids).calls = pass1CallsOf c ids := by
  unfold firstPass
  rw [foldl_pass1_calls]
  rfl

lemma firstPass_processedCount {σ : Type} (addL : σ → Nat → String → σ)
    (c : Nat → ClassificationResult) (lo : Nat → String → Bool)
    (st : σ) (ids : List Nat) :
    (firstPass addL c lo st ids).counts.processedCount = ids.length := by
  unfold firstPass
  rw [foldl_pass1_processedCount]
  simp

lemma pass1CallsOf_fst_mem (c : Nat → ClassificationResult) :
    ∀ (ids : List Nat) (p : Nat × String), p ∈ pass1CallsOf c ids → p.1 ∈ ids := by
  intro ids
  induction ids with
  | nil => intro p hp; simp [pass1CallsOf] at hp
  | cons id ids ih =>
      intro p hp
      rw [pass1CallsOf] at hp
      rcases List.mem_append.mp hp with h | h
      · rcases List.mem_append.mp h with h' | h'
        · by_cases hAdv : (c id).isAdvertising = true
          · rw [if_pos hAdv] at h'
            rw [List.mem_singleton.mp h']
            exact List.mem_cons_self id ids
          · rw [if_neg hAdv] at h'
            exact absurd h' (List.not_mem_nil p)
        · rw [List.mem_singleton.mp h']
          exact List.mem_cons_self id ids
      · exact List.mem_cons_of_mem id (ih p h)

lemma pass1CallsOf_adv (c : Nat → ClassificationResult) :
    ∀ (ids : List Nat) (p : Nat × String), p ∈ pass1CallsOf c ids →
      p.2 = ADVERTISING_LABEL → (c p.1).isAdvertising = true := by
  intro ids
  induction ids with
  | nil => intro p hp; simp [pass1CallsOf] at hp
  | cons id ids ih =>
      intro p hp h2
      rw [pass1CallsOf] at hp
      rcases List.mem_append.mp hp with h | h
      · rcases List.mem_append.mp h with h' | h'
        · by_cases hAdv : (c id).isAdvertising = true
          · rw [if_pos hAdv] at h'
            rw [List.mem_singleton.mp h']
            exact hAdv
          · rw [if_neg hAdv] at h'
            exact absurd h' (List.not_mem_nil p)
        · rw [List.mem_singleton.mp h'] at h2
          exact absurd h2 (by simp [ADVERTISING_LABEL, PROCESSED_LABEL])
      · exact ih p h h2

lemma stepStateOf_inv {σ : Type} (addL : σ → Nat → String → σ)
    (c : Nat → ClassificationResult) (lo : Nat → String → Bool) (P : σ → Prop)
    (hAdd : ∀ s id l, P s → P (addL s id l)) (s : σ) (id : Nat) (h : P s) :
    P (stepStateOf addL c lo s id) := by
  unfold stepStateOf
  by_cases h1 : ((c id).isAdvertising && lo id ADVERTISING_LABEL) = true <;>
    by_cases h3 : lo id PROCESSED_LABEL = true <;>
      simp only [h1, h3, if_true, if_false, Bool.false_eq_true, ite_true, ite_false]
  · exact hAdd _ _ _ (hAdd _ _ _ h)
  · exact hAdd _ _ _ h
  · exact hAdd _ _ _ h
  · exact h

lemma foldl_pass1_state_inv {σ : Type} (addL : σ → Nat → String → σ)
    (c : Nat → ClassificationResult) (lo : Nat → String → Bool) (P : σ → Prop)
    (hAdd : ∀ s id l, P s → P (addL s id l)) :
    ∀ (ids : List Nat) (acc : Pass1Acc σ), P acc.state →
      P ((ids.foldl (pass1Step addL c lo) acc)).state := by
  intro ids
  induction ids with
  | nil => intro acc h; simpa using h
  | cons id ids ih =>
      intro acc h
      rw [List.foldl_cons]
      refine ih _ ?_
      rw [pass1Step_state]
      exact stepStateOf_inv addL c lo P hAdd _ _ h

/-! ## Lemmas about the Gmail label operations -/

/-- Every message with the given uid carries the given label. -/
def uidLabeled (u : Nat) (l : String) (st : List GMsg) : Prop :=
  ∀ m ∈ st, m.uid = u → l ∈ m.labels

lemma addLabelTo_mem (l : String) (m : GMsg) : l ∈ (addLabelTo l m).labels := by
  unfold addLabelTo
  by_cases h : l ∈ m.labels <;> simp [h]

lemma addLabelTo_subset (l' : String) (m : GMsg) : m.labels ⊆ (addLabelTo l' m).labels := by
  unfold addLabelTo
  by_cases h : l' ∈ m.labels <;> simp [h]

lemma addLabelTo_uid (l' : String) (m : GMsg) : (addLabelTo l' m).uid = m.uid := rfl

lemma addLabelGmail_self (st : List GMsg) (u : Nat) (l : String) :
    uidLabeled u l (addLabelGmail st u l) := by
  intro m hm hu
  rcases List.mem_map.mp hm with ⟨m0, hm0, rfl⟩
  by_cases h : m0.uid = u
  · rw [if_pos h]
    exact addLabelTo_mem l m0
  · rw [if_neg h] at hu ⊢
    exact absurd hu h

lemma addLabelGmail_inv (u : Nat) (l : String) (st : List GMsg) (id : Nat) (l' : String)
    (h : uidLabeled u l st) : uidLabeled u l (addLabelGmail st id l') := by
  intro m hm hu
  rcases List.mem_map.mp hm with ⟨m0, hm0, rfl⟩
  by_cases hid : m0.uid = id
  · rw [if_pos hid] at hu ⊢
    rw [addLabelTo_uid] at hu
    exact addLabelTo_subset l' m0 (h m0 hm0 hu)
  · rw [if_neg hid] at hu ⊢
    exact h m0 hm0 hu

lemma fetchEmailsGmail_mem (st : List GMsg) (maxAgeDays : Int) (batchSize : Nat)
    (loc : String) (m : GMsg) (hm : m ∈ fetchEmailsGmail st maxAgeDays batchSize loc) :
    m ∈ st ∧ loc ∈ m.labels ∧ PROCESSED_LABEL ∉ m.labels ∧
      (maxAgeDays = 0 ∨ m.internalAgeDays ≤ maxAgeDays) := by
  have h1 : m ∈ st.filter (gmailSearchMatch loc maxAgeDays) :=
    List.take_subset _ _ hm
  have h2 := List.mem_filter.mp h1
  refine ⟨h2.1, ?_⟩
  have h3 := h2.2
  simp only [gmailSearchMatch, Bool.and_eq_true, Bool.or_eq_true, Bool.not_eq_true',
    decide_eq_true_eq, decide_eq_false_iff_not] at h3
  exact ⟨h3.1.1, h3.1.2, h3.2⟩

/-! ## Characterisation lemmas for Pass 2 -/

lemma pass2Step_skipped (dryRun : Bool) (deleteOk : Nat → Bool) (T : Int)
    (acc : Pass2Acc) (e : GMsg) :
    (pass2Step dryRun deleteOk T acc e).skippedDeletionCount =
      acc.skippedDeletionCount + (if jsGeNum e.ageInDays T then 0 else 1) := by
  by_cases hg : jsGeNum e.ageInDays T = true <;>
    by_cases hy : dryRun = true <;>
    by_cases hd : deleteOk e.uid = true <;>
      simp [pass2Step, hg, hy, hd]

lemma pass2Step_live_calls (deleteOk : Nat → Bool) (T : Int)
    (acc : Pass2Acc) (e : GMsg) :
    (pass2Step false deleteOk T acc e).deleteCalls =
      acc.deleteCalls ++ (if jsGeNum e.ageInDays T then [e.uid] else []) := by
  by_cases hg : jsGeNum e.ageInDays T = true <;>
    by_cases hd : deleteOk e.uid = true <;>
      simp [pass2Step, hg, hd]

lemma pass2Step_dry_state (deleteOk : Nat → Bool) (T : Int)
    (acc : Pass2Acc) (e : GMsg) :
    (pass2Step true deleteOk T acc e).state = acc.state := by
  by_cases hg : jsGeNum e.ageInDays T = true <;> simp [pass2Step, hg]

lemma pass2Step_dry_calls (deleteOk : Nat → Bool) (T : Int)
    (acc : Pass2Acc) (e : GMsg) :
    (pass2Step true deleteOk T acc e).deleteCalls = acc.deleteCalls := by
  by_cases hg : jsGeNum e.ageInDays T = true <;> simp [pass2Step, hg]

lemma pass2Step_dry_deleted (deleteOk : Nat → Bool) (T : Int)
    (acc : Pass2Acc) (e : GMsg) :
    (pass2Step true deleteOk T acc e).deletedCount =
      acc.deletedCount + (if jsGeNum e.ageInDays T then 1 else 0) := by
  by_cases hg : jsGeNum e.ageInDays T = true <;> simp [pass2Step, hg]

lemma foldl_pass2_skipped (dryRun : Bool) (deleteOk : Nat → Bool) (T : Int) :
    ∀ (fetched : List GMsg) (acc : Pass2Acc),
      (fetched.foldl (pass2Step dryRun deleteOk T) acc).skippedDeletionCount =
        acc.skippedDeletionCount +
          (fetched.filter fun e => !jsGeNum e.ageInDays T).length := by
  intro fetched
  induction fetched with
  | nil => intro acc; simp
  | cons e es ih =>
      intro acc
      rw [List.foldl_cons, ih, pass2Step_skipped, List.filter_cons]
      by_cases hg : jsGeNum e.ageInDays T = true <;> simp [hg] <;> omega

lemma foldl_pass2_live_calls (deleteOk : Nat → Bool) (T : Int) :
    ∀ (fetched : List GMsg) (acc : Pass2Acc),
      (fetched.foldl (pass2Step false deleteOk T) acc).deleteCalls =
        acc.deleteCalls ++
          ((fetched.filter fun e => jsGeNum e.ageInDays T).map GMsg.uid) := by
  intro fetched
  induction fetched with
  | nil => intro acc; simp
  | cons e es ih =>
      intro acc
      rw [List.foldl_cons, ih, pass2Step_live_calls, List.filter_cons]
      by_cases hg : jsGeNum e.ageInDays T = true <;> simp [hg]

lemma foldl_pass2_dry_state (deleteOk : Nat → Bool) (T : Int) :
    ∀ (fetched : List GMsg) (acc : Pass2Acc),
      (fetched.foldl (pass2Step true deleteOk T) acc).state = acc.state := by
  intro fetched
  induction fetched with
  | nil => intro acc; rfl
  | cons e es ih =>
      intro acc
      rw [List.foldl_cons, ih, pass2Step_dry_state]

lemma foldl_pass2_dry_calls (deleteOk : Nat → Bool) (T : Int) :
    ∀ (fetched : List GMsg) (acc : Pass2Acc),
      (fetched.foldl (pass2Step true deleteOk T) acc).deleteCalls = acc.deleteCalls := by
  intro fetched
  induction fetched with
  | nil => intro acc; rfl
  | cons e es ih =>
      intro acc
      rw [List.foldl_cons, ih, pass2Step_dry_calls]

lemma foldl_pass2_dry_deleted (deleteOk : Nat → Bool) (T : Int) :
    ∀ (fetched : List GMsg) (acc : Pass2Acc),
      (fetched.foldl (pass2Step true deleteOk T) acc).deletedCount =
        acc.deletedCount + (fetched.filter fun e => jsGeNum e.ageInDays T).length := by
  intro fetched
  induction fetched with
  | nil => intro acc; simp
  | cons e es ih =>
      intro acc
      rw [List.foldl_cons, ih, pass2Step_dry_deleted, List.filter_cons]
      by_cases hg : jsGeNum e.ageInDays T = true <;> simp [hg] <;> omega

/-! ## Pass 1 labelling lemmas on the Gmail state -/

lemma firstPass_proc_labeled (st : List GMsg) (c : Nat → ClassificationResult)
    (lo : Nat → String → Bool) (pre post : List Nat) (u : Nat)
    (hP : lo u PROCESSED_LABEL = true) :
    ∀ m ∈ (firstPass addLabelGmail c lo st (pre ++ u :: post)).state,
      m.uid = u → PROCESSED_LABEL ∈ m.labels := by
  unfold firstPass
  rw [List.foldl_append, List.foldl_cons]
  refine foldl_pass1_state_inv addLabelGmail c lo (uidLabeled u PROCESSED_LABEL)
    (fun s id l h => addLabelGmail_inv u PROCESSED_LABEL s id l h) post _ ?_
  rw [pass1Step_state]
  simp only [stepStateOf, hP, if_true]
  exact addLabelGmail_self _ u PROCESSED_LABEL

lemma firstPass_adv_labeled (st : List GMsg) (c : Nat → ClassificationResult)
    (lo : Nat → String → Bool) (pre post : List Nat) (u : Nat)
    (hAdv : (c u).isAdvertising = true) (hA : lo u ADVERTISING_LABEL = true) :
    ∀ m ∈ (firstPass addLabelGmail c lo st (pre ++ u :: post)).state,
      m.uid = u → ADVERTISING_LABEL ∈ m.labels := by
  unfold firstPass
  rw [List.foldl_append, List.foldl_cons]
  refine foldl_pass1_state_inv addLabelGmail c lo (uidLabeled u ADVERTISING_LABEL)
    (fun s id l h => addLabelGmail_inv u ADVERTISING_LABEL s id l h) post _ ?_
  rw [pass1Step_state]
  simp only [stepStateOf, hAdv, hA, Bool.and_self, if_true]
  by_cases h3 : lo u PROCESSED_LABEL = true
  · simp only [h3, if_true]
    exact addLabelGmail_inv u ADVERTISING_LABEL _ u PROCESSED_LABEL
      (addLabelGmail_self _ u ADVERTISING_LABEL)
  · simp only [h3, if_false]
    exact addLabelGmail_self _ u ADVERTISING_LABEL

/-! ## Classifier failure lemma -/

lemma classify_fail_default (resp : GatewayResponse)
    (h : resp = .transportError ∨ resp = .noContent ∨ resp = .parseError ∨
      ∃ r, resp = .parsed r ∧ validShape r = false) :
    classifyEmail resp = defaultResult := by
  rcases h with rfl | rfl | rfl | ⟨r, rfl, hr⟩
  · rfl
  · rfl
  · rfl
  · unfold validShape at hr
    unfold classifyEmail
    cases hb : getBool r.isAdvertising <;> cases hn : getNum r.confidence <;>
      cases hs : getStr r.reason <;> simp [hb, hn, hs] at hr ⊢

/-! ## Non-Gmail frame lemmas -/

lemma addFlagTo_folder (l : String) (m : FMsg) : (addFlagTo l m).folder = m.folder := rfl

lemma addFlagTo_uid (l : String) (m : FMsg) : (addFlagTo l m).uid = m.uid := rfl

lemma addLabelNonGmail_map_folder (st : List FMsg) (id : Nat) (l : String) :
    (addLabelNonGmail st id l).map FMsg.folder = st.map FMsg.folder := by
  unfold addLabelNonGmail
  rw [List.map_map]
  refine List.map_congr_left ?_
  intro m _
  by_cases h : m.folder = "INBOX" ∧ m.uid = id <;> simp [h, addFlagTo_folder]

lemma addLabelNonGmail_map_uid (st : List FMsg) (id : Nat) (l : String) :
    (addLabelNonGmail st id l).map FMsg.uid = st.map FMsg.uid := by
  unfold addLabelNonGmail
  rw [List.map_map]
  refine List.map_congr_left ?_
  intro m _
  by_cases h : m.folder = "INBOX" ∧ m.uid = id <;> simp [h, addFlagTo_uid]

lemma firstPass_nonGmail_frame (st : List FMsg) (c : Nat → ClassificationResult)
    (lo : Nat → String → Bool) (ids : List Nat) :
    (firstPass addLabelNonGmail c lo st ids).state.map FMsg.folder = st.map FMsg.folder
    ∧ (firstPass addLabelNonGmail c lo st ids).state.map FMsg.uid = st.map FMsg.uid := by
  unfold firstPass
  exact foldl_pass1_state_inv addLabelNonGmail c lo
    (fun s => s.map FMsg.folder = st.map FMsg.folder ∧ s.map FMsg.uid = st.map FMsg.uid)
    (fun s id l h => ⟨by rw [addLabelNonGmail_map_folder, h.1],
                      by rw [addLabelNonGmail_map_uid, h.2]⟩)
    ids _ ⟨rfl, rfl⟩

lemma maps_eq_exists_twin (st' st : List FMsg)
    (hf : st'.map FMsg.folder = st.map FMsg.folder)
    (hu : st'.map FMsg.uid = st.map FMsg.uid) :
    ∀ m0 ∈ st, ∃ m' ∈ st', m'.uid = m0.uid ∧ m'.folder = m0.folder := by
  induction st' generalizing st with
  | nil =>
      cases st with
      | nil => intro m0 hm0; exact absurd hm0 (List.not_mem_nil m0)
      | cons b bs => simp at hf
  | cons a as ih =>
      cases st with
      | nil => simp at hf
      | cons b bs =>
          simp only [List.map_cons, List.cons.injEq] at hf hu
          intro m0 hm0
          rcases List.mem_cons.mp hm0 with rfl | h
          · exact ⟨a, List.mem_cons_self a as, hu.1, hf.1⟩
          · rcases ih bs hf.2 hu.2 m0 h with ⟨m', hm', h1, h2⟩
            exact ⟨m', List.mem_cons_of_mem a hm', h1, h2⟩

lemma fetchEmailsNonGmail_mem (st : List FMsg) (maxAgeDays : Int) (batchSize : Nat)
    (includeRead includeUnread : Bool) (loc : String) (m : FMsg)
    (hm : m ∈ fetchEmailsNonGmail st maxAgeDays batchSize includeRead includeUnread loc) :
    m ∈ st ∧ m.folder = loc := by
  have h1 := List.take_subset _ _ hm
  have h2 := List.mem_filter.mp h1
  have h3 := List.mem_filter.mp h2.1
  exact ⟨h3.1, of_decide_eq_true h3.2⟩

/-! ## Folder-listing lemmas -/

lemma pushFolderName_nodup (acc : List String) (name : String) (h : acc.Nodup) :
    (pushFolderName acc name).Nodup := by
  unfold pushFolderName
  by_cases hc : name ≠ "" ∧ replaceGmailTag name ≠ "" ∧ replaceGmailTag name ∉ acc
  · rw [if_pos hc, List.nodup_append]
    exact ⟨h, List.nodup_singleton _, by simpa [List.disjoint_singleton] using hc.2.2⟩
  · simpa [hc] using h

lemma processBoxesGmail_nodup (acc : List String) (bs : List Box) (h : acc.Nodup) :
    (processBoxesGmail acc bs).Nodup := by
  induction acc, bs using processBoxesGmail.induct with
  | case1 acc => simpa [processBoxesGmail]
  | case2 acc name children rest ih1 ih2 =>
      rw [processBoxesGmail]
      exact ih2 (ih1 (pushFolderName_nodup _ _ h))

/-! ## Claim theorems -/

/-- C1: in Pass 2, every message fetched from the Advertising location
whose ageInDays is at or above the deletion threshold gets a deleteEmail
call when dry run is off, every message strictly below the threshold is
counted as skipped-for-age instead, and at the boundary an age exactly
equal to the threshold compares as deletable while one day below does
not. -/
theorem secondPass_age_threshold_boundary
    (st : List GMsg) (deleteOk : Nat → Bool) (T maxAgeDays : Int) (batchSize : Nat) :
    (secondPass false deleteOk T st
        (fetchEmailsGmail st maxAgeDays batchSize ADVERTISING_LABEL)).deleteCalls =
      ((fetchEmailsGmail st maxAgeDays batchSize ADVERTISING_LABEL).filter
        fun e => jsGeNum e.ageInDays T).map GMsg.uid
    ∧ (secondPass false deleteOk T st
        (fetchEmailsGmail st maxAgeDays batchSize ADVERTISING_LABEL)).skippedDeletionCount =
      ((fetchEmailsGmail st maxAgeDays batchSize ADVERTISING_LABEL).filter
        fun e => !jsGeNum e.ageInDays T).length
    ∧ (∀ e ∈ fetchEmailsGmail st maxAgeDays batchSize ADVERTISING_LABEL,
        jsGeNum e.ageInDays T = true →
          e.uid ∈ (secondPass false deleteOk T st
            (fetchEmailsGmail st maxAgeDays batchSize ADVERTISING_LABEL)).deleteCalls)
    ∧ jsGeNum (some T) T = true ∧ jsGeNum (some (T - 1)) T = false := by
  have hcalls : (secondPass false deleteOk T st
      (fetchEmailsGmail st maxAgeDays batchSize ADVERTISING_LABEL)).deleteCalls =
      ((fetchEmailsGmail st maxAgeDays batchSize ADVERTISING_LABEL).filter
        fun e => jsGeNum e.ageInDays T).map GMsg.uid := by
    unfold secondPass
    rw [foldl_pass2_live_calls]
    simp
  refine ⟨hcalls, ?_, ?_, ?_, ?_⟩
  · unfold secondPass
    rw [foldl_pass2_skipped]
    simp
  · intro e he hg
    rw [hcalls]
    exact List.mem_map.mpr ⟨e, List.mem_filter.mpr ⟨he, hg⟩, rfl⟩
  · simp [jsGeNum]
  · simp only [jsGeNum, decide_eq_false_iff_not]
    omega

/-- C1 witness: in a concrete mailbox with one Advertising message of age
61 against threshold 60, the live Pass 2 issues the delete call; 60
compares deletable against 60, 59 does not. -/
theorem secondPass_age_threshold_boundary_w :
    (1 : Nat) ∈ (secondPass false (fun _ => true) 60
        ([⟨1, [ADVERTISING_LABEL], 10, some 61⟩] : List GMsg)
        (fetchEmailsGmail ([⟨1, [ADVERTISING_LABEL], 10, some 61⟩] : List GMsg)
          365 50 ADVERTISING_LABEL)).deleteCalls
    ∧ jsGeNum (some 60) 60 = true ∧ jsGeNum (some 59) 60 = false := by
  have h := secondPass_age_threshold_boundary
    ([⟨1, [ADVERTISING_LABEL], 10, some 61⟩] : List GMsg) (fun _ => true) 60 365 50
  exact ⟨h.2.2.1 ⟨1, [ADVERTISING_LABEL], 10, some 61⟩ (by decide) (by decide),
    by decide, by decide⟩

/-- C2 (code bug evidence): the Gmail fetch of the Advertising location
always carries the -label:Processed exclusion in its raw query, so a
message tagged both Advertising and Processed, well within the age window
and the batch cap, is not returned, while its Processed-free twin is. -/
theorem secondPass_fetch_excludes_processed_advertising :
    fetchEmailsGmail ([⟨1, [ADVERTISING_LABEL, PROCESSED_LABEL], 10, some 61⟩] : List GMsg)
        365 50 ADVERTISING_LABEL = []
    ∧ ADVERTISING_LABEL ∈ (⟨1, [ADVERTISING_LABEL, PROCESSED_LABEL], 10, some 61⟩ : GMsg).labels
    ∧ (⟨1, [ADVERTISING_LABEL, PROCESSED_LABEL], 10, some 61⟩ : GMsg).internalAgeDays ≤ 365
    ∧ fetchEmailsGmail ([⟨1, [ADVERTISING_LABEL], 10, some 61⟩] : List GMsg)
        365 50 ADVERTISING_LABEL = [⟨1, [ADVERTISING_LABEL], 10, some 61⟩] := by
  refine ⟨by decide, by decide, by decide, by decide⟩

/-- C6: with dry run enabled, Pass 2 over the fetch of the Advertising
location leaves the mailbox state untouched, issues no delete call,
counts as would-delete exactly the messages at or above the threshold,
counts the rest as skipped, and a subsequent fetch of the same location
still returns every previously fetched message. -/
theorem secondPass_dry_run_preserves_mailbox
    (st : List GMsg) (deleteOk : Nat → Bool) (T maxAgeDays : Int) (batchSize : Nat) :
    (secondPass true deleteOk T st
        (fetchEmailsGmail st maxAgeDays batchSize ADVERTISING_LABEL)).state = st
    ∧ (secondPass true deleteOk T st
        (fetchEmailsGmail st maxAgeDays batchSize ADVERTISING_LABEL)).deleteCalls = []
    ∧ (secondPass true deleteOk T st
        (fetchEmailsGmail st maxAgeDays batchSize ADVERTISING_LABEL)).deletedCount =
      ((fetchEmailsGmail st maxAgeDays batchSize ADVERTISING_LABEL).filter
        fun e => jsGeNum e.ageInDays T).length
    ∧ (secondPass true deleteOk T st
        (fetchEmailsGmail st maxAgeDays batchSize ADVERTISING_LABEL)).skippedDeletionCount =
      ((fetchEmailsGmail st maxAgeDays batchSize ADVERTISING_LABEL).filter
        fun e => !jsGeNum e.ageInDays T).length
    ∧ (∀ e ∈ fetchEmailsGmail st maxAgeDays batchSize ADVERTISING_LABEL,
        e ∈ fetchEmailsGmail (secondPass true deleteOk T st
          (fetchEmailsGmail st maxAgeDays batchSize ADVERTISING_LABEL)).state
            maxAgeDays batchSize ADVERTISING_LABEL) := by
  have hstate : (secondPass true deleteOk T st
      (fetchEmailsGmail st maxAgeDays batchSize ADVERTISING_LABEL)).state = st := by
    unfold secondPass
    rw [foldl_pass2_dry_state]
  refine ⟨hstate, ?_, ?_, ?_, ?_⟩
  · unfold secondPass
    rw [foldl_pass2_dry_calls]
  · unfold secondPass
    rw [foldl_pass2_dry_deleted]
    simp
  · unfold secondPass
    rw [foldl_pass2_skipped]
    simp
  · intro e he
    rw [hstate]
    exact he

/-- C6 witness: for a concrete mailbox with one old Advertising message
under dry run, the state is unchanged, no delete call is issued, the
message counts as would-delete, and it is still returned by the repeated
fetch. -/
theorem secondPass_dry_run_preserves_mailbox_w :
    (secondPass true (fun _ => true) 60
        ([⟨1, [ADVERTISING_LABEL], 10, some 61⟩] : List GMsg)
        (fetchEmailsGmail ([⟨1, [ADVERTISING_LABEL], 10, some 61⟩] : List GMsg)
          365 50 ADVERTISING_LABEL)).state = [⟨1, [ADVERTISING_LABEL], 10, some 61⟩]
    ∧ (secondPass true (fun _ => true) 60
        ([⟨1, [ADVERTISING_LABEL], 10, some 61⟩] : List GMsg)
        (fetchEmailsGmail ([⟨1, [ADVERTISING_LABEL], 10, some 61⟩] : List GMsg)
          365 50 ADVERTISING_LABEL)).deleteCalls = []
    ∧ (⟨1, [ADVERTISING_LABEL], 10, some 61⟩ : GMsg) ∈
        fetchEmailsGmail (secondPass true (fun _ => true) 60
          ([⟨1, [ADVERTISING_LABEL], 10, some 61⟩] : List GMsg)
          (fetchEmailsGmail ([⟨1, [ADVERTISING_LABEL], 10, some 61⟩] : List GMsg)
            365 50 ADVERTISING_LABEL)).state 365 50 ADVERTISING_LABEL := by
  have h := secondPass_dry_run_preserves_mailbox
    ([⟨1, [ADVERTISING_LABEL], 10, some 61⟩] : List GMsg) (fun _ => true) 60 365 50
  exact ⟨h.1, h.2.1, h.2.2.2.2 ⟨1, [ADVERTISING_LABEL], 10, some 61⟩ (by decide)⟩

/-- C3: in Pass 1, every message classified advertising whose two label
calls succeed ends the pass carrying both the Advertising and the
Processed label; the Processed label lands regardless of the
classification outcome; and the loop processes every fetched message no
matter which per-message label calls fail. -/
theorem firstPass_advertising_carries_both_labels
    (st : List GMsg) (classifyOf : Nat → ClassificationResult)
    (labelOk : Nat → String → Bool) (pre post : List Nat) (u : Nat) (thr : ℚ)
    (hP : labelOk u PROCESSED_LABEL = true) :
    (∀ m ∈ (firstPass addLabelGmail classifyOf labelOk st (pre ++ u :: post)).state,
        m.uid = u → PROCESSED_LABEL ∈ m.labels)
    ∧ ((classifyOf u).isAdvertising = true → labelOk u ADVERTISING_LABEL = true →
        thr < (classifyOf u).confidence →
        ∀ m ∈ (firstPass addLabelGmail classifyOf labelOk st (pre ++ u :: post)).state,
          m.uid = u → ADVERTISING_LABEL ∈ m.labels ∧ PROCESSED_LABEL ∈ m.labels)
    ∧ (firstPass addLabelGmail classifyOf labelOk st (pre ++ u :: post)).counts.processedCount
        = (pre ++ u :: post).length := by
  refine ⟨firstPass_proc_labeled st classifyOf labelOk pre post u hP, ?_, ?_⟩
  · intro hAdv hA _ m hm hu
    exact ⟨firstPass_adv_labeled st classifyOf labelOk pre post u hAdv hA m hm hu,
      firstPass_proc_labeled st classifyOf labelOk pre post u hP m hm hu⟩
  · exact firstPass_processedCount addLabelGmail classifyOf labelOk st (pre ++ u :: post)

/-- C3 witness: a concrete one-message mailbox whose message is classified
advertising with confidence above 0.85 and whose label calls succeed ends
the pass with both labels on the message, and the pass processes the
whole batch. -/
theorem firstPass_advertising_carries_both_labels_w :
    (∀ m ∈ (firstPass addLabelGmail
        (fun _ => { isAdvertising := true, confidence := 9 / 10, reason := "ad" })
        (fun _ _ => true) ([⟨1, ["INBOX"], 1, some 1⟩] : List GMsg)
        ([] ++ 1 :: [])).state,
      m.uid = 1 → PROCESSED_LABEL ∈ m.labels)
    ∧ (∀ m ∈ (firstPass addLabelGmail
        (fun _ => { isAdvertising := true, confidence := 9 / 10, reason := "ad" })
        (fun _ _ => true) ([⟨1, ["INBOX"], 1, some 1⟩] : List GMsg)
        ([] ++ 1 :: [])).state,
      m.uid = 1 → ADVERTISING_LABEL ∈ m.labels ∧ PROCESSED_LABEL ∈ m.labels)
    ∧ (firstPass addLabelGmail
        (fun _ => { isAdvertising := true, confidence := 9 / 10, reason := "ad" })
        (fun _ _ => true) ([⟨1, ["INBOX"], 1, some 1⟩] : List GMsg)
        ([] ++ 1 :: [])).counts.processedCount = ([] ++ 1 :: []).length := by
  have h := firstPass_advertising_carries_both_labels
    ([⟨1, ["INBOX"], 1, some 1⟩] : List GMsg)
    (fun _ => { isAdvertising := true, confidence := 9 / 10, reason := "ad" })
    (fun _ _ => true) [] [] 1 (85 / 100) rfl
  exact ⟨h.1, h.2.1 rfl rfl (by norm_num), h.2.2⟩

/-- C4: every failing gateway outcome, namely a transport error, absent
content, a JSON parse failure or a failed field-type validation, makes
classifyEmail return the fail-safe default with isAdvertising false and
confidence 0; consequently in Pass 1 such a message never receives an
Advertising addLabel call and, when its Processed call succeeds, ends the
pass carrying the Processed label. -/
theorem classifyEmail_failsafe_processed_only
    (resp : GatewayResponse) (classifyOf : Nat → ClassificationResult)
    (labelOk : Nat → String → Bool) (st : List GMsg) (pre post : List Nat) (u : Nat)
    (hfail : resp = .transportError ∨ resp = .noContent ∨ resp = .parseError ∨
      ∃ r, resp = .parsed r ∧ validShape r = false)
    (hc : classifyOf u = classifyEmail resp)
    (hP : labelOk u PROCESSED_LABEL = true) :
    classifyEmail resp = defaultResult
    ∧ (classifyEmail resp).isAdvertising = false ∧ (classifyEmail resp).confidence = 0
    ∧ (∀ p ∈ (firstPass addLabelGmail classifyOf labelOk st (pre ++ u :: post)).calls,
        p.1 = u → p.2 ≠ ADVERTISING_LABEL)
    ∧ (∀ m ∈ (firstPass addLabelGmail classifyOf labelOk st (pre ++ u :: post)).state,
        m.uid = u → PROCESSED_LABEL ∈ m.labels) := by
  have hdef := classify_fail_default resp hfail
  refine ⟨hdef, by rw [hdef]; rfl, by rw [hdef]; rfl, ?_,
    firstPass_proc_labeled st classifyOf labelOk pre post u hP⟩
  intro p hp h1 h2
  rw [firstPass_calls] at hp
  have hadv := pass1CallsOf_adv classifyOf _ p hp h2
  rw [h1, hc, hdef] at hadv
  simp [defaultResult] at hadv

/-- C4 witness: with a parse failure for the only message, the
instantiated pass issues no Advertising call for it and its record ends
with the Processed label. -/
theorem classifyEmail_failsafe_processed_only_w :
    classifyEmail .parseError = defaultResult
    ∧ (∀ p ∈ (firstPass addLabelGmail (fun _ => classifyEmail .parseError)
          (fun _ _ => true) ([⟨7, ["INBOX"], 1, some 1⟩] : List GMsg)
          ([] ++ 7 :: [])).calls,
        p.1 = 7 → p.2 ≠ ADVERTISING_LABEL)
    ∧ (∀ m ∈ (firstPass addLabelGmail (fun _ => classifyEmail .parseError)
          (fun _ _ => true) ([⟨7, ["INBOX"], 1, some 1⟩] : List GMsg)
          ([] ++ 7 :: [])).state,
        m.uid = 7 → PROCESSED_LABEL ∈ m.labels) := by
  have h := classifyEmail_failsafe_processed_only .parseError
    (fun _ => classifyEmail .parseError) (fun _ _ => true)
    ([⟨7, ["INBOX"], 1, some 1⟩] : List GMsg) [] [] 7
    (Or.inr (Or.inr (Or.inl rfl))) rfl rfl
  exact ⟨h.1, h.2.2.2.1, h.2.2.2.2⟩

/-- C5: on a label-semantics provider the inbox fetch excludes the
Processed label at query time, so no fetched message carries Processed,
and a repeated Pass 1 run over such a fetch never issues an addLabel call
against a message already carrying the Processed label. -/
theorem firstPass_idempotent_processed_excluded
    (st : List GMsg) (classifyOf : Nat → ClassificationResult)
    (labelOk : Nat → String → Bool) (maxAgeDays : Int) (batchSize : Nat)
    (hnd : (st.map GMsg.uid).Nodup) :
    (∀ e ∈ fetchEmailsGmail st maxAgeDays batchSize "INBOX", PROCESSED_LABEL ∉ e.labels)
    ∧ (∀ m ∈ st, PROCESSED_LABEL ∈ m.labels →
        ∀ p ∈ (firstPass addLabelGmail classifyOf labelOk st
            ((fetchEmailsGmail st maxAgeDays batchSize "INBOX").map GMsg.uid)).calls,
          p.1 ≠ m.uid) := by
  constructor
  · intro e he
    exact (fetchEmailsGmail_mem st maxAgeDays batchSize "INBOX" e he).2.2.1
  · intro m hm hPm p hp heq
    rw [firstPass_calls] at hp
    have h1 := pass1CallsOf_fst_mem classifyOf _ p hp
    rcases List.mem_map.mp h1 with ⟨e, he, heu⟩
    have hprops := fetchEmailsGmail_mem st maxAgeDays batchSize "INBOX" e he
    have heqm : e = m :=
      List.inj_on_of_nodup_map hnd hprops.1 hm (by rw [heu, heq])
    exact hprops.2.2.1 (heqm ▸ hPm)

/-- C5 witness: in a mailbox whose only inbox message already carries the
Processed label, the fetch returns nothing with that label and the
repeated pass issues no call against it. -/
theorem firstPass_idempotent_processed_excluded_w :
    (∀ e ∈ fetchEmailsGmail ([⟨3, ["INBOX", PROCESSED_LABEL], 1, some 1⟩] : List GMsg)
        365 50 "INBOX", PROCESSED_LABEL ∉ e.labels)
    ∧ (∀ p ∈ (firstPass addLabelGmail (fun _ => defaultResult) (fun _ _ => true)
          ([⟨3, ["INBOX", PROCESSED_LABEL], 1, some 1⟩] : List GMsg)
          ((fetchEmailsGmail ([⟨3, ["INBOX", PROCESSED_LABEL], 1, some 1⟩] : List GMsg)
            365 50 "INBOX").map GMsg.uid)).calls,
        p.1 ≠ 3) := by
  have h := firstPass_idempotent_processed_excluded
    ([⟨3, ["INBOX", PROCESSED_LABEL], 1, some 1⟩] : List GMsg)
    (fun _ => defaultResult) (fun _ _ => true) 365 50 (by decide)
  exact ⟨h.1, h.2 ⟨3, ["INBOX", PROCESSED_LABEL], 1, some 1⟩ (by decide) (by decide)⟩

/-- C7 counterexample: a parsed reply whose confidence is the number 2,
outside the interval zero to one, passes validation and is returned
verbatim instead of being replaced by the fail-safe default. -/
theorem classifyEmail_confidence_range_unchecked :
    classifyEmail (.parsed ⟨some (.jbool true), some (.jnum 2), some (.jstr "promo")⟩)
      = { isAdvertising := true, confidence := 2, reason := "promo" }
    ∧ classifyEmail (.parsed ⟨some (.jbool true), some (.jnum 2), some (.jstr "promo")⟩)
        ≠ defaultResult
    ∧ ¬((classifyEmail (.parsed ⟨some (.jbool true), some (.jnum 2),
        some (.jstr "promo")⟩)).confidence ≤ 1) := by
  refine ⟨rfl, by decide, by norm_num [classifyEmail, getBool, getNum, getStr]⟩

/-- C7 amended: a reply failing the three field-type checks is replaced
by the fail-safe default, but the numeric range of confidence is not
validated: any reply with a boolean, a number and a string is returned
verbatim, whatever the number. -/
theorem classifyEmail_type_validation_only
    (r : RawReply) (b : Bool) (q : ℚ) (s : String)
    (hshape : validShape r = false) :
    classifyEmail (.parsed r) = defaultResult
    ∧ classifyEmail (.parsed ⟨some (.jbool b), some (.jnum q), some (.jstr s)⟩)
        = { isAdvertising := b, confidence := q, reason := s } := by
  exact ⟨classify_fail_default _ (Or.inr (Or.inr (Or.inr ⟨r, rfl, hshape⟩))), rfl⟩

/-- C7 amended witness: the all-absent reply yields the default, and the
well-typed reply with confidence 2 comes back verbatim. -/
theorem classifyEmail_type_validation_only_w :
    classifyEmail (.parsed ⟨none, none, none⟩) = defaultResult
    ∧ classifyEmail (.parsed ⟨some (.jbool true), some (.jnum 2), some (.jstr "x")⟩)
        = { isAdvertising := true, confidence := 2, reason := "x" } :=
  classifyEmail_type_validation_only ⟨none, none, none⟩ true 2 "x" rfl

/-- C8 counterexample: a message whose Date header is present but
unparsable does not get age 0 and the fetch-time date: its date becomes
the invalid date and its age the non-number, refuting the claim for the
unparsable case. -/
theorem buildEmail_unparsable_date_not_age_zero :
    (buildEmail (fun _ => none) 1000 ⟨1, none, none, some "not a date", []⟩).ageInDays
      ≠ some 0
    ∧ (buildEmail (fun _ => none) 1000 ⟨1, none, none, some "not a date", []⟩).date
        ≠ some 1000 := by
  refine ⟨by decide, by decide⟩

/-- C8 amended: a missing Date header leaves the defaults, the fetch time
as date and age 0; a present but unparsable header instead yields the
invalid date and a non-number age, which compares below every deletion
threshold; and either way the fetch yields one record per message and
never fails as a whole. -/
theorem buildEmail_date_default_behavior
    (parseDate : String → Option Int) (now : Int) (raw : RawMessage)
    (raws : List RawMessage) (T : Int) :
    (raw.dateHdr = none →
      (buildEmail parseDate now raw).date = some now ∧
        (buildEmail parseDate now raw).ageInDays = some 0)
    ∧ (∀ s, raw.dateHdr = some s → parseDate s = none →
      (buildEmail parseDate now raw).date = none ∧
        (buildEmail parseDate now raw).ageInDays = none ∧
        jsGeNum (buildEmail parseDate now raw).ageInDays T = false)
    ∧ (buildFetchedEmails parseDate now raws).length = raws.length := by
  refine ⟨?_, ?_, ?_⟩
  · intro h
    simp [buildEmail, h]
  · intro s hs hp
    simp [buildEmail, hs, hp, jsGeNum]
  · simp [buildFetchedEmails]

/-- C8 amended witness: instantiated at a missing header, an unparsable
header and a two-message raw batch. -/
theorem buildEmail_date_default_behavior_w :
    ((⟨1, none, none, none, []⟩ : RawMessage).dateHdr = none →
      (buildEmail (fun _ => none) 1000 ⟨1, none, none, none, []⟩).date = some 1000 ∧
        (buildEmail (fun _ => none) 1000 ⟨1, none, none, none, []⟩).ageInDays = some 0)
    ∧ (∀ s, (⟨1, none, none, none, []⟩ : RawMessage).dateHdr = some s →
        (fun _ => (none : Option Int)) s = none →
      (buildEmail (fun _ => none) 1000 ⟨1, none, none, none, []⟩).date = none ∧
        (buildEmail (fun _ => none) 1000 ⟨1, none, none, none, []⟩).ageInDays = none ∧
        jsGeNum (buildEmail (fun _ => none) 1000 ⟨1, none, none, none, []⟩).ageInDays 60
          = false)
    ∧ (buildFetchedEmails (fun _ => none) 1000
        [⟨1, none, none, none, []⟩, ⟨2, none, none, some "bad", []⟩]).length = 2 :=
  buildEmail_date_default_behavior (fun _ => none) 1000 ⟨1, none, none, none, []⟩
    [⟨1, none, none, none, []⟩, ⟨2, none, none, some "bad", []⟩] 60

/-- C9 counterexample: on the active Gmail listFolders, the required
system locations are not injected: a provider reporting only INBOX yields
a result without Sent, Drafts, Trash or Spam. -/
theorem listFoldersGmail_missing_required_locations :
    listFoldersGmail [Box.node "INBOX" []] = ["INBOX"]
    ∧ "Spam" ∉ listFoldersGmail [Box.node "INBOX" []]
    ∧ "Trash" ∉ listFoldersGmail [Box.node "INBOX" []]
    ∧ "Sent" ∉ listFoldersGmail [Box.node "INBOX" []]
    ∧ "Drafts" ∉ listFoldersGmail [Box.node "INBOX" []] := by
  have h : listFoldersGmail [Box.node "INBOX" []] = ["INBOX"] := by
    simp only [listFoldersGmail, processBoxesGmail]
    decide
  refine ⟨h, ?_, ?_, ?_, ?_⟩ <;> rw [h] <;> decide

/-- C9 amended: the Gmail listFolders result is deduplicated and free of
empty or blank names, but the required system locations are only
guaranteed when the provider reports them. -/
theorem listFoldersGmail_dedup_no_empty (boxes : List Box) (f : String)
    (hf : f ∈ listFoldersGmail boxes) :
    (listFoldersGmail boxes).Nodup ∧ f ≠ "" ∧ trimStr f ≠ "" := by
  refine ⟨List.Nodup.filter _ (processBoxesGmail_nodup [] boxes List.nodup_nil), ?_, ?_⟩
  · have h := (List.mem_filter.mp hf).2
    rw [Bool.and_eq_true, decide_eq_true_eq, decide_eq_true_eq] at h
    exact h.1
  · have h := (List.mem_filter.mp hf).2
    rw [Bool.and_eq_true, decide_eq_true_eq, decide_eq_true_eq] at h
    exact h.2

/-- C9 amended witness: instantiated at a provider reporting INBOX twice
through nesting; the result is duplicate free and INBOX is non-blank. -/
theorem listFoldersGmail_dedup_no_empty_w :
    (listFoldersGmail [Box.node "INBOX" [Box.node "INBOX" []]]).Nodup
    ∧ "INBOX" ≠ "" ∧ trimStr "INBOX" ≠ "" := by
  have h := listFoldersGmail_dedup_no_empty [Box.node "INBOX" [Box.node "INBOX" []]]
    "INBOX" (by simp only [listFoldersGmail, processBoxesGmail]; decide)
  exact ⟨h.1, h.2.1, h.2.2⟩

/-- C10: on a folder-semantics provider, addLabel only sets a flag inside
INBOX and relocates nothing, so a message sitting in INBOX that Pass 1
marks Advertising is still in INBOX afterwards and is never returned by
the Pass 2 fetch of the Advertising folder. -/
theorem addLabelNonGmail_no_relocation
    (st : List FMsg) (classifyOf : Nat → ClassificationResult)
    (labelOk : Nat → String → Bool) (ids : List Nat)
    (maxAgeDays : Int) (batchSize : Nat) (includeRead includeUnread : Bool)
    (m0 : FMsg) (hm0 : m0 ∈ st) (hfold : m0.folder = "INBOX")
    (hnd : (st.map FMsg.uid).Nodup) :
    (∀ id l, (addLabelNonGmail st id l).map FMsg.folder = st.map FMsg.folder)
    ∧ (∀ id l, ∀ m' ∈ addLabelNonGmail st id l,
        m'.folder = "INBOX" → m'.uid = id → l ∈ m'.flags)
    ∧ (∃ m' ∈ (firstPass addLabelNonGmail classifyOf labelOk st ids).state,
        m'.uid = m0.uid ∧ m'.folder = "INBOX")
    ∧ (∀ m ∈ fetchEmailsNonGmail (firstPass addLabelNonGmail classifyOf labelOk st ids).state
          maxAgeDays batchSize includeRead includeUnread ADVERTISING_LABEL,
        m.uid ≠ m0.uid) := by
  have hframe := firstPass_nonGmail_frame st classifyOf labelOk ids
  have htwin := maps_eq_exists_twin _ st hframe.1 hframe.2 m0 hm0
  rcases htwin with ⟨m', hm', hu', hf'⟩
  refine ⟨fun id l => addLabelNonGmail_map_folder st id l, ?_, ⟨m', hm', hu', by rw [hf', hfold]⟩, ?_⟩
  · intro id l m' hm' hfold' huid'
    rcases List.mem_map.mp hm' with ⟨m1, hm1, rfl⟩
    by_cases hcond : m1.folder = "INBOX" ∧ m1.uid = id
    · rw [if_pos hcond]
      unfold addFlagTo
      by_cases hl : l ∈ m1.flags <;> simp [hl]
    · rw [if_neg hcond] at hfold' huid' ⊢
      exact absurd ⟨hfold', huid'⟩ hcond
  · intro m hm heq
    have hmem := fetchEmailsNonGmail_mem _ maxAgeDays batchSize includeRead includeUnread
      ADVERTISING_LABEL m hm
    have hnd' : ((firstPass addLabelNonGmail classifyOf labelOk st ids).state.map
        FMsg.uid).Nodup := by
      rw [hframe.2]; exact hnd
    have hmm : m = m' :=
      List.inj_on_of_nodup_map hnd' hmem.1 hm' (by rw [heq, hu'])
    have : m.folder = "INBOX" := by rw [hmm, hf', hfold]
    rw [hmem.2] at this
    exact absurd this (by decide)

/-- C10 witness: a two-message folder mailbox where the INBOX message gets
marked by the pass; it stays in INBOX and the Advertising fetch never
returns its uid. -/
theorem addLabelNonGmail_no_relocation_w :
    (∃ m' ∈ (firstPass addLabelNonGmail (fun _ => defaultResult) (fun _ _ => true)
        ([⟨5, "INBOX", [], 1, false⟩, ⟨6, "Advertising", [], 99, false⟩] : List FMsg)
        [5]).state, m'.uid = 5 ∧ m'.folder = "INBOX")
    ∧ (∀ m ∈ fetchEmailsNonGmail (firstPass addLabelNonGmail (fun _ => defaultResult)
          (fun _ _ => true)
          ([⟨5, "INBOX", [], 1, false⟩, ⟨6, "Advertising", [], 99, false⟩] : List FMsg)
          [5]).state 365 50 true true ADVERTISING_LABEL,
        m.uid ≠ 5) := by
  have h := addLabelNonGmail_no_relocation
    ([⟨5, "INBOX", [], 1, false⟩, ⟨6, "Advertising", [], 99, false⟩] : List FMsg)
    (fun _ => defaultResult) (fun _ _ => true) [5] 365 50 true true
    ⟨5, "INBOX", [], 1, false⟩ (by decide) rfl (by decide)
  exact ⟨h.2.2.1, h.2.2.2⟩

end Deletifier
